import Mathlib

/-!
A verification development for the desktop RPA learner module
(`rpa_learner.py`): recorder, UIA / OCR matchers, click resolver,
session replay loop and hotkey mode controller, shallowly embedded in
Lean.  External collaborators (UI-automation tree walk, tesseract OCR,
screen capture, fuzzy string scorer) enter as explicit data: the list
of elements a tree walk yields, the rows an OCR pass yields, and the
scoring function, are parameters of the definitions that consume them.
Scores and OCR confidences are rationals (the Python floats involved
are exact at the magnitudes in play).  Machine-level effects (sqlite
commits, prints, sleeps, actual mouse motion) are not modelled; the
data they carry is.
-/

namespace RPALearner

/-! ## UIA element data (uia_props, lines 139-152 of rpa_learner.py)

`uia_props` turns a live element into a dict of properties, or `None`
when the element is absent or any accessor raised; the recorder stores
that dict.  `BoundingRectangle` may itself be `None` (falsy rectangle). -/

structure UiaProps where
  Name : String
  ControlType : String
  AutomationId : String
  ClassName : String
  BoundingRectangle : Option (List Int)
  RuntimeId : Option (List Int)
deriving DecidableEq

/-! ## Step rows (steps table, schema lines 89-100)

One row of the `steps` table.  `bbox` and `uia` are stored as JSON in
sqlite; JSON round-tripping is the identity on the modelled data, so
the fields hold the decoded values directly. -/

structure StepRow where
  session_id : Nat
  order_idx : Nat
  action_type : String
  text : Option String
  x : Option Int
  y : Option Int
  bbox : Option (List Int)
  uia : Option UiaProps
  snap_path : Option String
deriving DecidableEq

/-- Python truthiness of an optional list: `json.dumps(bbox) if bbox
else None` stores `NULL` both for `None` and for an empty list
(record_step, line 260). -/
def truthyList : Option (List Int) → Option (List Int)
  | some l => if l = [] then none else some l
  | none => none

/-! ## Recorder (class Recorder, lines 221-314)

The listener handles and the sqlite cursor are runtime plumbing; the
recorder state proper is the current session id, the step-order
counter and the typed-text buffer. -/

structure RecorderState where
  session_id : Option Nat
  order_idx : Nat
  buffer_typed : List Char
deriving DecidableEq

/-- `Recorder.start_session` (lines 230-236): inserts a `sessions` row
and takes its autoincrement id (`cur.lastrowid`, here one past the
largest existing id), then resets the order counter to zero. -/
def start_session (rec : RecorderState) (sessions : List Nat) : RecorderState × List Nat :=
  let sid := sessions.foldr max 0 + 1
  ({ rec with session_id := some sid, order_idx := 0 }, sessions ++ [sid])

/-- `Recorder.end_session` (lines 239-242). -/
def end_session (rec : RecorderState) : RecorderState :=
  { rec with session_id := none, order_idx := 0 }

/-- `Recorder.record_step` (lines 245-267): no-op without an active
session; otherwise appends one row carrying the current `order_idx`
and increments the counter. -/
def record_step (rec : RecorderState) (db : List StepRow) (action_type : String)
    (text : Option String) (x y : Option Int) (uia_info : Option UiaProps)
    (bbox : Option (List Int)) (snap_path : Option String) : RecorderState × List StepRow :=
  match rec.session_id with
  | none => (rec, db)
  | some sid =>
      ({ rec with order_idx := rec.order_idx + 1 },
       db ++ [{ session_id := sid, order_idx := rec.order_idx, action_type := action_type,
                text := text, x := x, y := y, bbox := truthyList bbox, uia := uia_info,
                snap_path := snap_path }])

/-- What the outside world supplies to one `on_click` callback: the
saved screenshot path (`save_snap(grab_screen())`) and the property
dict of the element under the pointer (`uia_props(uia_at(x, y))`,
`None` when the probe found nothing or raised). -/
structure ClickEnv where
  snap_path : String
  props : Option UiaProps

/-- `Recorder.on_click` (lines 270-280).  `pressed` is `True` on the
press half of a click, `False` on the release half; the callback
returns early unless training, and returns early on `not pressed`,
i.e. it records on the press event.  `bbox` is
`props.get(BoundingRectangle) if props else None`. -/
def on_click (training : Bool) (env : ClickEnv) (rec : RecorderState) (db : List StepRow)
    (x y : Int) (pressed : Bool) : RecorderState × List StepRow :=
  if training = false then (rec, db)
  else if pressed = false then (rec, db)
  else
    let bbox := env.props.bind (fun p => p.BoundingRectangle)
    record_step rec db "click" none (some x) (some y) env.props bbox (some env.snap_path)

/-- The arguments of one `record_step` call, used to state properties
of whole recording sessions. -/
structure StepPayload where
  action_type : String
  text : Option String
  x : Option Int
  y : Option Int
  uia : Option UiaProps
  bbox : Option (List Int)
  snap_path : Option String

/-- A sequence of `record_step` calls against one recorder state. -/
def record_many (rec : RecorderState) (db : List StepRow) (ps : List StepPayload) :
    RecorderState × List StepRow :=
  ps.foldl
    (fun acc p => record_step acc.1 acc.2 p.action_type p.text p.x p.y p.uia p.bbox p.snap_path)
    (rec, db)

/-! ## UIA tree matcher (uia_find_best, lines 156-183)

The breadth-first walk `uia.WalkControl(root)` is supplied as the list
of elements it yields, in traversal order; an element whose property
accessors raise is swallowed by the `except: pass` and is simply not
in the list.  The external fuzzy scorer `fuzz.partial_ratio` is the
parameter `sim` (rapidfuzz returns a float in [0, 100]; theorems that
need it assume nonnegativity explicitly). -/

structure UIAElem where
  Name : String
  ControlTypeName : String
  BoundingRectangle : Option (Int × Int × Int × Int)
deriving DecidableEq

/-- The score `visit` computes for one element (line 172):
`fuzz.partial_ratio(target_text.lower(), name.lower()) if target_text
else -1`. -/
def visitScore (sim : String → String → ℚ) (target_text : String) (e : UIAElem) : ℚ :=
  if target_text = "" then -1 else sim target_text.toLower e.Name.toLower

/-- The control-type filter (lines 170-171): skip when `control_type`
is truthy (non-None, non-empty) and differs from the element's type. -/
def ctypeSkip : Option String → UIAElem → Bool
  | none, _ => false
  | some ct, e => ct != "" && e.ControlTypeName != ct

/-- One best-so-far update: `if score > best_score: best, best_score =
e, score` (lines 173-174 and 215-216). -/
def pickStep (f : α → ℚ) (acc : Option α × ℚ) (e : α) : Option α × ℚ :=
  if acc.2 < f e then (some e, f e) else acc

/-- The whole best-tracking loop from `best, best_score = None, -1`. -/
def pickBest (f : α → ℚ) (l : List α) : Option α × ℚ :=
  l.foldl (pickStep f) (none, -1)

/-- `uia_find_best` (lines 156-183) over the walked elements. -/
def uia_find_best (sim : String → String → ℚ) (elems : List UIAElem)
    (target_text : String) (control_type : Option String) : Option UIAElem × ℚ :=
  elems.foldl
    (fun acc e =>
      if ctypeSkip control_type e then acc
      else pickStep (visitScore sim target_text) acc e)
    (none, -1)

/-! ## OCR matcher (ocr_boxes / ocr_find_best, lines 189-217) -/

/-- One row of the `pytesseract.image_to_data` output arrays.  `conf`
is `none` where the raw value was `None` or the string `-1`. -/
structure OcrRow where
  text : String
  conf : Option ℚ
  left : Int
  top : Int
  width : Int
  height : Int
deriving DecidableEq

/-- One surviving box `{text, conf, bbox}` (bbox is (left, top, width,
height)). -/
structure OcrBox where
  text : String
  conf : ℚ
  bbox : Int × Int × Int × Int
deriving DecidableEq

/-- `ocr_boxes` (lines 189-205): drop empty text, default missing
confidence to 0.0, drop confidence below 40, keep the rest in order.
The `except` arm (OCR engine failure yields `[]`) is the `rows = []`
instance. -/
def ocr_boxes (rows : List OcrRow) : List OcrBox :=
  rows.filterMap fun r =>
    if r.text = "" then none
    else
      let conf := r.conf.getD 0
      if conf < 40 then none
      else some { text := r.text, conf := conf, bbox := (r.left, r.top, r.width, r.height) }

/-- `ocr_find_best` (lines 209-217): best-so-far scan of the surviving
boxes under `fuzz.partial_ratio(target_text.lower(), text.lower())`. -/
def ocr_find_best (sim : String → String → ℚ) (rows : List OcrRow)
    (target_text : String) : Option OcrBox × ℚ :=
  pickBest (fun b => sim target_text.toLower b.text.toLower) (ocr_boxes rows)

/-! ## Center point (center_of_bbox, lines 321-327)

Python's `int((L+R)/2)` truncates the exact half-sum toward zero,
which on integers is exactly `Int.tdiv (L+R) 2` (T-division).  For a
list of fewer than four entries Python raises IndexError; the `getD 0`
defaults never matter to any theorem below, which all concern
four-entry rectangles. -/

def center_of_bbox (bbox : List Int) : Option (Int × Int) :=
  if bbox = [] then none
  else
    let q := if bbox.length = 4 then bbox
             else [bbox.getD 0 0, bbox.getD 1 0,
                   bbox.getD 0 0 + bbox.getD 2 0, bbox.getD 1 0 + bbox.getD 3 0]
    match q with
    | [l, t, r, b] => some (Int.tdiv (l + r) 2, Int.tdiv (t + b) 2)
    | _ => none

/-! ## Click resolution in run_session (lines 357-393) -/

/-- How one click step resolved: which tier produced the point, or
failure (line 393's warning). -/
inductive Resolved
  | uiaClick (p : Int × Int)
  | ocrClick (p : Int × Int)
  | fallbackClick (p : Int × Int)
  | failed
deriving DecidableEq

/-- The live world one replay step sees: the scorer, the desktop walk
`uia.WalkControl(GetRootControl())` would yield, and the OCR rows of a
fresh full-screen grab. -/
structure ReplayEnv where
  sim : String → String → ℚ
  uiaElems : List UIAElem
  ocrRows : List OcrRow

/-- Tier 1 (lines 362-372): UIA search over the whole desktop when the
remembered name is truthy; click only when an element came back with a
truthy rectangle and a center whose coordinates are both truthy
(`if cx and cy:`, line 368 — zero is falsy). -/
def tier1 (env : ReplayEnv) (target_name : Option String) : Option (Int × Int) :=
  let res :=
    match target_name with
    | some name => if name != "" then uia_find_best env.sim env.uiaElems name none else (none, -1)
    | none => (none, -1)
  match res.1 with
  | none => none
  | some e =>
    match e.BoundingRectangle with
    | none => none
    | some (l, t, r, b) =>
      match center_of_bbox [l, t, r, b] with
      | none => none
      | some (cx, cy) => if cx != 0 && cy != 0 then some (cx, cy) else none

/-- Tiers 2 and 3 (lines 374-393): OCR on a fresh grab when the name
is truthy — the center there is `int(bx + bw/2)` on the (left, top,
width, height) box, i.e. the truncation of the exact `(2*bx + bw)/2` —
then the recorded literal coordinates, then failure. -/
def resolve_fallback (env : ReplayEnv) (target_name : Option String)
    (x y : Option Int) : Resolved :=
  let obox :=
    match target_name with
    | some name => if name != "" then (ocr_find_best env.sim env.ocrRows name).1 else none
    | none => none
  match obox with
  | some b =>
      Resolved.ocrClick
        (Int.tdiv (2 * b.bbox.1 + b.bbox.2.2.1) 2, Int.tdiv (2 * b.bbox.2.1 + b.bbox.2.2.2) 2)
  | none =>
    match x, y with
    | some xv, some yv => Resolved.fallbackClick (xv, yv)
    | _, _ => Resolved.failed

/-- The whole click branch of `run_session` (lines 357-393):
`target_name = (uinfo or {}).get(Name) if uinfo else None`, tier 1,
else the fallbacks. -/
def resolve_click (env : ReplayEnv) (uinfo : Option UiaProps) (x y : Option Int) : Resolved :=
  let target_name := uinfo.map (fun p => p.Name)
  match tier1 env target_name with
  | some p => Resolved.uiaClick p
  | none => resolve_fallback env target_name x y

/-- What executing one fetched step does (lines 357-401): dispatch on
`action_type`; a type step emits `type_text(text or '')`. -/
inductive StepOutcome
  | clicked (r : Resolved)
  | typed (s : String)
  | unknownAction
deriving DecidableEq

def exec_step (env : ReplayEnv) (s : StepRow) : StepOutcome :=
  if s.action_type = "click" then StepOutcome.clicked (resolve_click env s.uia s.x s.y)
  else if s.action_type = "type" then StepOutcome.typed (s.text.getD "")
  else StepOutcome.unknownAction

/-! ## Replay loop (run_session, lines 339-401)

The loop reads the shared flags at discrete instants; a schedule
`Nat → Flags` gives the value seen by the t-th read, and every read
advances the clock by one.  Per iteration the loop reads `stopping`
once (line 348), then polls `paused` (line 351) until it reads false;
the poll loop is given polling fuel, and exhausting it while still
paused models remaining blocked (`none` result time). -/

structure Flags where
  paused : Bool
  stopping : Bool
deriving DecidableEq

/-- `while STATE[paused]: time.sleep(0.2)` — with fuel for at most
`fuel + 1` reads, returns the clock just after the first read that
found `paused` clear, or `none` while still blocked. -/
def pauseLoop (pausedAt : Nat → Bool) : Nat → Nat → Option Nat
  | 0, t => if pausedAt t then none else some (t + 1)
  | fuel + 1, t => if pausedAt t then pauseLoop pausedAt fuel (t + 1) else some (t + 1)

/-- The step loop of `run_session` on the already-fetched,
`order_idx`-sorted rows, from clock `t`: returns the executed steps
with their outcomes, and the clock after the loop ended (`none` if it
is still blocked inside a pause wait).  `envs` gives the live world at
the instant each step body runs. -/
def run_session (sch : Nat → Flags) (envs : Nat → ReplayEnv) (fuel : Nat) :
    List StepRow → Nat → List (StepRow × StepOutcome) × Option Nat
  | [], t => ([], some t)
  | s :: rest, t =>
    if (sch t).stopping then ([], some (t + 1))
    else
      match pauseLoop (fun u => (sch u).paused) fuel (t + 1) with
      | none => ([], none)
      | some t2 =>
          let res := run_session sch envs fuel rest t2
          ((s, exec_step (envs t2) s) :: res.1, res.2)

/-! ## Mode controller (toggle_train / do_run, lines 415-457) -/

structure ModeState where
  training : Bool
  running : Bool
  paused : Bool
  stopping : Bool
deriving DecidableEq

inductive TrainResult
  | endedSession
  | refusedRunning
  | startedSession
deriving DecidableEq

/-- `toggle_train` (lines 415-427): toggle off ends the session;
toggle on is refused while running, otherwise starts a session. -/
def toggle_train (st : ModeState) : ModeState × TrainResult :=
  if st.training then ({ st with training := false }, TrainResult.endedSession)
  else if st.running then (st, TrainResult.refusedRunning)
  else ({ st with training := true }, TrainResult.startedSession)

inductive RunResult
  | refusedTraining
  | refusedAlreadyRunning
  | noSessions
  | startedPlayer (sid : Nat)
deriving DecidableEq

/-- `do_run` (lines 430-457): refused while training, refused while
already running, no-op without sessions, else the worker thread starts
on the latest session and sets `running`. -/
def do_run (st : ModeState) (sessions : List Nat) : ModeState × RunResult :=
  if st.training then (st, RunResult.refusedTraining)
  else if st.running then (st, RunResult.refusedAlreadyRunning)
  else
    match sessions.getLast? with
    | none => (st, RunResult.noSessions)
    | some sid => ({ st with running := true }, RunResult.startedPlayer sid)

/-! ## Concrete instances used by witnesses and counterexamples -/

/-- A stand-in external scorer (any function would do; rapidfuzz is
nonnegative, which this one is). -/
def simEx : String → String → ℚ := fun _ _ => 100

def submitProps : UiaProps :=
  { Name := "Submit", ControlType := "Button", AutomationId := "", ClassName := "",
    BoundingRectangle := none, RuntimeId := none }

/-- The OCR row of the spec scenario: text "Submit", confidence 85,
box (100, 200, 80, 30). -/
def submitRow : OcrRow :=
  { text := "Submit", conf := some 85, left := 100, top := 200, width := 80, height := 30 }

def submitBox : OcrBox :=
  { text := "Submit", conf := 85, bbox := (100, 200, 80, 30) }

/-- A row whose confidence 10 falls below the floor. -/
def rowLow : OcrRow :=
  { text := "no", conf := some 10, left := 0, top := 0, width := 0, height := 0 }

def elemA : UIAElem := { Name := "Submit", ControlTypeName := "Button", BoundingRectangle := none }

def elemB : UIAElem := { Name := "Submit", ControlTypeName := "Text", BoundingRectangle := none }

/-- An element whose bounding rectangle (0, 0, 0, 10) has center
x-coordinate 0. -/
def elemZero : UIAElem :=
  { Name := "Submit", ControlTypeName := "Button", BoundingRectangle := some (0, 0, 0, 10) }

def clickEnvEx : ClickEnv :=
  { snap_path := "snap_click.jpg",
    props := some { Name := "OK", ControlType := "Button", AutomationId := "", ClassName := "",
                    BoundingRectangle := some [10, 20, 110, 60], RuntimeId := some [1, 2] } }

/-- A recorder with an open session and a fresh counter. -/
def recEx : RecorderState := { session_id := some 1, order_idx := 0, buffer_typed := [] }

def recInit : RecorderState := { session_id := none, order_idx := 0, buffer_typed := [] }

def payA : StepPayload :=
  { action_type := "click", text := none, x := some 1, y := some 2, uia := none, bbox := none,
    snap_path := some "a.jpg" }

def payB : StepPayload :=
  { action_type := "type", text := some "hello", x := none, y := none, uia := none, bbox := none,
    snap_path := some "b.jpg" }

/-- Schedule for the pause counterexample: paused at every read, and
the stop flag set from read 1 on. -/
def schedC3 : Nat → Flags := fun t => { paused := true, stopping := decide (1 ≤ t) }

/-- Schedule where the pause flag is held at reads 1 and 2 and clear
from read 3 on, stop never set. -/
def schedW : Nat → Flags := fun t => { paused := t == 1 || t == 2, stopping := false }

/-- Schedule where the stop flag is set from read 2 on, pause never. -/
def schedStop2 : Nat → Flags := fun t => { paused := false, stopping := decide (2 ≤ t) }

/-- Schedule where no read ever sees a flag. -/
def schedRun : Nat → Flags := fun _ => { paused := false, stopping := false }

def envsEx : Nat → ReplayEnv := fun _ => { sim := simEx, uiaElems := [], ocrRows := [] }

def stepEx : StepRow :=
  { session_id := 1, order_idx := 0, action_type := "click", text := none, x := none, y := none,
    bbox := none, uia := none, snap_path := none }

def row0 : StepRow :=
  { session_id := 1, order_idx := 0, action_type := "type", text := some "a", x := none, y := none,
    bbox := none, uia := none, snap_path := none }

def row1 : StepRow := { row0 with order_idx := 1 }

def row2 : StepRow := { row0 with order_idx := 2 }

/-! ## Helper lemmas -/

/-- Where the best-so-far scan of `uia_find_best` / `ocr_find_best`
ends up, for any start accumulator: either nothing beat the incoming
score, or the first element that attains the maximum wins (later ties
lose to the strict comparison). -/
lemma pickFold_cases (f : α → ℚ) (l : List α) : ∀ (ob : Option α) (s : ℚ),
    ((∀ y ∈ l, f y ≤ s) ∧ l.foldl (pickStep f) (ob, s) = (ob, s)) ∨
    (∃ pre e post, l = pre ++ e :: post ∧ s < f e ∧
      l.foldl (pickStep f) (ob, s) = (some e, f e) ∧
      (∀ y ∈ l, f y ≤ f e) ∧ (∀ y ∈ pre, f y < f e)) := by
  induction l with
  | nil => intro ob s; exact Or.inl ⟨by simp, rfl⟩
  | cons e l ih =>
    intro ob s
    by_cases h : s < f e
    · have hstep : List.foldl (pickStep f) (ob, s) (e :: l)
          = List.foldl (pickStep f) (some e, f e) l := by
        simp [pickStep, h]
      rcases ih (some e) (f e) with ⟨hle, heq⟩ | ⟨pre, e2, post, hsplit, hgt, heq, hmax, hpre⟩
      · refine Or.inr ⟨[], e, l, by simp, h, by rw [hstep, heq], ?_, by simp⟩
        intro y hy
        rcases List.mem_cons.mp hy with rfl | hy
        · exact le_refl _
        · exact hle y hy
      · refine Or.inr ⟨e :: pre, e2, post, by simp [hsplit], lt_trans h hgt,
          by rw [hstep, heq], ?_, ?_⟩
        · intro y hy
          rcases List.mem_cons.mp hy with rfl | hy
          · exact le_of_lt hgt
          · exact hmax y hy
        · intro y hy
          rcases List.mem_cons.mp hy with rfl | hy
          · exact hgt
          · exact hpre y hy
    · have hstep : List.foldl (pickStep f) (ob, s) (e :: l)
          = List.foldl (pickStep f) (ob, s) l := by
        simp [pickStep, h]
      rcases ih ob s with ⟨hle, heq⟩ | ⟨pre, e2, post, hsplit, hgt, heq, hmax, hpre⟩
      · refine Or.inl ⟨?_, by rw [hstep, heq]⟩
        intro y hy
        rcases List.mem_cons.mp hy with rfl | hy
        · exact not_lt.mp h
        · exact hle y hy
      · refine Or.inr ⟨e :: pre, e2, post, by simp [hsplit], hgt, by rw [hstep, heq], ?_, ?_⟩
        · intro y hy
          rcases List.mem_cons.mp hy with rfl | hy
          · exact le_trans (not_lt.mp h) (le_of_lt hgt)
          · exact hmax y hy
        · intro y hy
          rcases List.mem_cons.mp hy with rfl | hy
          · exact lt_of_le_of_lt (not_lt.mp h) hgt
          · exact hpre y hy

/-- With no control-type filter the skip test is identically false and
`uia_find_best` is the plain best-so-far scan. -/
lemma uia_find_best_no_filter (sim : String → String → ℚ) (elems : List UIAElem)
    (target_text : String) :
    uia_find_best sim elems target_text none = pickBest (visitScore sim target_text) elems := rfl

/-- A best-so-far scan only ever reports a member of the list. -/
lemma pickBest_fst_mem (f : α → ℚ) (l : List α) {b : α}
    (h : (pickBest f l).1 = some b) : b ∈ l := by
  rcases pickFold_cases f l none (-1) with ⟨_, heq⟩ | ⟨pre, e, post, hsplit, _, heq, _, _⟩
  · rw [pickBest] at h
    rw [heq] at h
    cases h
  · rw [pickBest] at h
    rw [heq] at h
    cases h
    rw [hsplit]
    exact List.mem_append.mpr (Or.inr (List.mem_cons_self _ _))

/-- Every box `ocr_boxes` lets through has confidence at least 40. -/
lemma mem_ocr_boxes_conf {rows : List OcrRow} {b : OcrBox}
    (hb : b ∈ ocr_boxes rows) : 40 ≤ b.conf := by
  rw [ocr_boxes, List.mem_filterMap] at hb
  obtain ⟨r, _, hr⟩ := hb
  by_cases h1 : r.text = ""
  · rw [if_pos h1] at hr
    cases hr
  · rw [if_neg h1] at hr
    by_cases h2 : r.conf.getD 0 < 40
    · rw [if_pos h2] at hr
      cases hr
    · rw [if_neg h2] at hr
      cases hr
      exact not_lt.mp h2

/-- A singleton scan picks its one box when that box beats the -1
start score. -/
lemma pickBest_singleton (f : α → ℚ) (b : α) (h : (-1 : ℚ) < f b) :
    pickBest f [b] = (some b, f b) := by
  simp [pickBest, pickStep, h]

/-- On a four-entry list the length test holds, so `center_of_bbox`
reads it as (left, top, right, bottom) and halves each axis sum with
truncation toward zero. -/
lemma center_of_bbox_quad (l t r b : Int) :
    center_of_bbox [l, t, r, b] = some (Int.tdiv (l + r) 2, Int.tdiv (t + b) 2) := rfl

/-- The fallback tiers never produce a tier-1 (UIA) click. -/
lemma resolve_fallback_ne_uiaClick (env : ReplayEnv) (tn : Option String)
    (x y : Option Int) (p : Int × Int) :
    resolve_fallback env tn x y ≠ Resolved.uiaClick p := by
  simp only [resolve_fallback]
  split
  · simp
  · split
    · simp
    · simp

/-- If every poll within fuel still sees the pause flag, the wait loop
has not exited. -/
lemma pauseLoop_none (pausedAt : Nat → Bool) (fuel : Nat) : ∀ (t : Nat),
    (∀ u, t ≤ u → u ≤ t + fuel → pausedAt u = true) → pauseLoop pausedAt fuel t = none := by
  induction fuel with
  | zero =>
    intro t h
    rw [pauseLoop, if_pos (h t (le_refl t) (by omega))]
  | succ fuel ih =>
    intro t h
    rw [pauseLoop, if_pos (h t (le_refl t) (by omega))]
    exact ih (t + 1) (fun u h1 h2 => h u (by omega) (by omega))

/-- If the pause flag holds for the first `k` polls and is clear at
poll `k`, the wait loop exits right after that poll — whatever any
other flag does meanwhile. -/
lemma pauseLoop_some (pausedAt : Nat → Bool) : ∀ (k fuel t : Nat), k ≤ fuel →
    (∀ u, t ≤ u → u < t + k → pausedAt u = true) → pausedAt (t + k) = false →
    pauseLoop pausedAt fuel t = some (t + k + 1) := by
  intro k
  induction k with
  | zero =>
    intro fuel t _ _ hclear
    cases fuel with
    | zero => rw [pauseLoop, if_neg (by simp [show pausedAt t = false from hclear])]
    | succ fuel => rw [pauseLoop, if_neg (by simp [show pausedAt t = false from hclear])]
  | succ k ih =>
    intro fuel t hk hhold hclear
    cases fuel with
    | zero => omega
    | succ fuel =>
      rw [pauseLoop, if_pos (hhold t (le_refl t) (by omega))]
      have h2 : pausedAt (t + 1 + k) = false := by
        have : t + 1 + k = t + (k + 1) := by omega
        rw [this]; exact hclear
      have := ih fuel (t + 1) (by omega) (fun u h1 h2 => hhold u (by omega) (by omega)) h2
      rw [this]
      congr 1
      omega

/-- Whatever the flags do, the executed steps are an initial segment
of the fetched rows in fetch order. -/
lemma run_session_visits (sch : Nat → Flags) (envs : Nat → ReplayEnv) (fuel : Nat) :
    ∀ (steps : List StepRow) (t : Nat),
      ∃ rest2, ((run_session sch envs fuel steps t).1.map (fun q => q.1)) ++ rest2 = steps := by
  intro steps
  induction steps with
  | nil => intro t; exact ⟨[], rfl⟩
  | cons s rest ih =>
    intro t
    by_cases h : (sch t).stopping = true
    · exact ⟨s :: rest, by simp [run_session, h]⟩
    · rcases hp : pauseLoop (fun u => (sch u).paused) fuel (t + 1) with _ | t2
      · exact ⟨s :: rest, by simp [run_session, h, hp]⟩
      · obtain ⟨r2, hr2⟩ := ih t2
        exact ⟨r2, by simp [run_session, h, hp, hr2]⟩

/-- A poll that finds the pause flag clear exits the wait at once,
with any fuel. -/
lemma pauseLoop_clear (pausedAt : Nat → Bool) (fuel t : Nat)
    (h : pausedAt t = false) : pauseLoop pausedAt fuel t = some (t + 1) := by
  cases fuel with
  | zero => rw [pauseLoop, if_neg (by simp [h])]
  | succ fuel => rw [pauseLoop, if_neg (by simp [h])]

/-- When no read ever sees the stop flag or the pause flag, the loop
runs to completion: every fetched row is executed, in fetch order. -/
lemma run_session_total (sch : Nat → Flags) (envs : Nat → ReplayEnv) (fuel : Nat)
    (hstop : ∀ u, (sch u).stopping = false) (hpause : ∀ u, (sch u).paused = false) :
    ∀ (steps : List StepRow) (t : Nat),
      ((run_session sch envs fuel steps t).1.map (fun q => q.1)) = steps := by
  intro steps
  induction steps with
  | nil => intro t; rfl
  | cons s rest ih =>
    intro t
    have hp : pauseLoop (fun u => (sch u).paused) fuel (t + 1) = some (t + 2) :=
      pauseLoop_clear _ fuel (t + 1) (hpause (t + 1))
    simp [run_session, hstop t, hp, ih]

/-- Running a batch of `record_step` calls with session `sid` open
appends, among the rows of that session, exactly the consecutive
indices starting at the current counter. -/
lemma record_many_filter (sid : Nat) (ps : List StepPayload) :
    ∀ (rec : RecorderState) (db : List StepRow), rec.session_id = some sid →
      (((record_many rec db ps).2.filter (fun r => r.session_id == sid)).map
          (fun r => r.order_idx))
        = ((db.filter (fun r => r.session_id == sid)).map (fun r => r.order_idx))
            ++ List.range' rec.order_idx ps.length := by
  induction ps with
  | nil =>
    intro rec db h
    simp [record_many]
  | cons p ps ih =>
    intro rec db h
    have hstep : record_many rec db (p :: ps)
        = record_many { rec with order_idx := rec.order_idx + 1 }
            (db ++ [{ session_id := sid, order_idx := rec.order_idx,
                      action_type := p.action_type, text := p.text, x := p.x, y := p.y,
                      bbox := truthyList p.bbox, uia := p.uia, snap_path := p.snap_path }]) ps := by
      simp only [record_many, List.foldl_cons, record_step, h]
    rw [hstep, ih _ _ (by simp [h])]
    simp only [List.filter_append, List.map_append]
    rw [List.length_cons, List.range'_succ]
    simp [List.append_assoc]

/-! ## Claim theorems -/

/-- C1: for a click step remembering the name "Submit", when the live
UIA walk yields nothing and OCR of the fresh grab yields the box
{text: "Submit", confidence: 85, bbox: (100, 200, 80, 30)}, the
resolver uses the OCR result and the click point is exactly
(140, 215).  The scorer is arbitrary nonnegative. -/
theorem resolver_uses_ocr_for_submit (sim : String → String → ℚ)
    (hsim : ∀ a b, 0 ≤ sim a b) :
    resolve_click { sim := sim, uiaElems := [], ocrRows := [submitRow] }
      (some submitProps) none none = Resolved.ocrClick (140, 215) := by
  have hocr : ocr_boxes [submitRow] = [submitBox] := by decide
  have hlt : (-1 : ℚ) < sim "Submit".toLower submitBox.text.toLower :=
    lt_of_lt_of_le (by norm_num) (hsim _ _)
  have hbox : (ocr_find_best sim [submitRow] "Submit").1 = some submitBox := by
    rw [ocr_find_best, hocr,
      pickBest_singleton (fun bb => sim "Submit".toLower bb.text.toLower) submitBox hlt]
  show resolve_fallback { sim := sim, uiaElems := [], ocrRows := [submitRow] }
      (some "Submit") none none = Resolved.ocrClick (140, 215)
  simp only [resolve_fallback]
  rw [if_pos (by decide : ("Submit" != "") = true), hbox]
  decide

theorem resolver_uses_ocr_for_submit_witness :
    resolve_click { sim := simEx, uiaElems := [], ocrRows := [submitRow] }
      (some submitProps) none none = Resolved.ocrClick (140, 215) :=
  resolver_uses_ocr_for_submit simEx (fun a b => by norm_num [simEx])

/-- C2 counterexample: in training with an open session, the release
half of a click (pressed = false) records nothing, and it is the press
half (pressed = true) that appends the click step — the opposite of
the claim. -/
theorem on_click_counterexample :
    on_click true clickEnvEx recEx [] 5 7 false = (recEx, []) ∧
    (on_click true clickEnvEx recEx [] 5 7 true).2 =
      [{ session_id := 1, order_idx := 0, action_type := "click", text := none,
         x := some 5, y := some 7, bbox := some [10, 20, 110, 60], uia := clickEnvEx.props,
         snap_path := some "snap_click.jpg" }] := by
  decide

/-- C2 amended: while in training mode with an open session, the click
step — position, descriptor if any, bounding box if any, snapshot
reference — is built and appended on the click-press input event, and
click-release events are ignored and record nothing. -/
theorem on_click_press_records (env : ClickEnv) (rec : RecorderState) (db : List StepRow)
    (x y : Int) (sid : Nat) (hsid : rec.session_id = some sid) :
    on_click true env rec db x y false = (rec, db) ∧
    on_click true env rec db x y true =
      ({ rec with order_idx := rec.order_idx + 1 },
       db ++ [{ session_id := sid, order_idx := rec.order_idx, action_type := "click",
                text := none, x := some x, y := some y,
                bbox := truthyList (env.props.bind (fun p => p.BoundingRectangle)),
                uia := env.props, snap_path := some env.snap_path }]) := by
  constructor
  · rfl
  · simp only [on_click, record_step, hsid]
    rfl

theorem on_click_press_records_witness :
    on_click true clickEnvEx recEx [] 9 9 false = (recEx, []) ∧
    on_click true clickEnvEx recEx [] 9 9 true =
      ({ session_id := some 1, order_idx := 1, buffer_typed := [] },
       [{ session_id := 1, order_idx := 0, action_type := "click", text := none,
          x := some 9, y := some 9, bbox := some [10, 20, 110, 60],
          uia := clickEnvEx.props, snap_path := some "snap_click.jpg" }]) :=
  on_click_press_records clickEnvEx recEx [] 9 9 1 rfl

/-- C3 counterexample: pause is held at every poll and the stop flag
is set from read 1 on (schedC3), yet after 50 polls the player is
still blocked in the pause wait and has executed nothing — the wait
condition never looks at the stop flag, so setting stop does not
unblock it as the claim says. -/
theorem pause_wait_ignores_stop_counterexample :
    (schedC3 1).stopping = true ∧ (schedC3 50).stopping = true ∧
    run_session schedC3 envsEx 50 [stepEx] 0 = ([], none) := by
  decide

/-- C3 amended: if the pause flag is set before a step, the player
executes no further step and blocks, polling the pause flag only,
until that flag is cleared — the stop flag does not unblock the wait —
and when the pause flag clears it proceeds with the step. -/
theorem pause_blocks_until_cleared (sch : Nat → Flags) (envs : Nat → ReplayEnv)
    (s : StepRow) (rest : List StepRow) (t fuel : Nat) :
    ((sch t).stopping = false →
      (∀ u, t + 1 ≤ u → u ≤ t + 1 + fuel → (sch u).paused = true) →
      run_session sch envs fuel (s :: rest) t = ([], none)) ∧
    (∀ k, k ≤ fuel →
      (sch t).stopping = false →
      (∀ u, t + 1 ≤ u → u < t + 1 + k → (sch u).paused = true) →
      (sch (t + 1 + k)).paused = false →
      run_session sch envs fuel (s :: rest) t =
        ((s, exec_step (envs (t + 1 + k + 1)) s) :: (run_session sch envs fuel rest (t + 1 + k + 1)).1,
         (run_session sch envs fuel rest (t + 1 + k + 1)).2)) := by
  constructor
  · intro hstop hp
    have hnone : pauseLoop (fun u => (sch u).paused) fuel (t + 1) = none :=
      pauseLoop_none _ fuel (t + 1) (fun u h1 h2 => hp u h1 h2)
    simp [run_session, hstop, hnone]
  · intro k hk hstop hp hclear
    have hsome : pauseLoop (fun u => (sch u).paused) fuel (t + 1) = some (t + 1 + k + 1) :=
      pauseLoop_some _ k fuel (t + 1) hk (fun u h1 h2 => hp u h1 h2) hclear
    simp [run_session, hstop, hsome]

theorem pause_blocks_until_cleared_witness :
    run_session schedW envsEx 5 [stepEx] 0 =
      ((stepEx, exec_step (envsEx (0 + 1 + 2 + 1)) stepEx)
          :: (run_session schedW envsEx 5 [] (0 + 1 + 2 + 1)).1,
       (run_session schedW envsEx 5 [] (0 + 1 + 2 + 1)).2) :=
  (pause_blocks_until_cleared schedW envsEx stepEx [] 0 5).2 2 (by norm_num) rfl
    (by intro u h1 h2
        have : u = 1 ∨ u = 2 := by omega
        rcases this with rfl | rfl <;> rfl)
    rfl

/-- C4: replay visits the fetched rows in fetch order — with the query
ordering by `order_idx`, in strictly increasing `order_idx`, each at
most once with no skipping ahead (the executed indices are an initial
segment of the fetched ones); at any step boundary where the stop flag
reads true, no further step executes, so the visited steps are a
prefix that stops there; and when no read ever sees the stop flag (nor
a pause that would keep the loop waiting), every fetched step is
visited — exactly once each. -/
theorem replay_visits_increasing_prefix (sch : Nat → Flags) (envs : Nat → ReplayEnv)
    (fuel : Nat) (steps : List StepRow) (t : Nat) :
    (∃ rest2, ((run_session sch envs fuel steps t).1.map (fun q => q.1.order_idx)) ++ rest2
        = steps.map (fun s => s.order_idx)) ∧
    (List.Pairwise (· < ·) (steps.map (fun s => s.order_idx)) →
      List.Pairwise (· < ·) ((run_session sch envs fuel steps t).1.map (fun q => q.1.order_idx))) ∧
    ((steps.map (fun s => s.order_idx)).Nodup →
      ((run_session sch envs fuel steps t).1.map (fun q => q.1.order_idx)).Nodup) ∧
    (∀ t2 s rest, (sch t2).stopping = true →
      run_session sch envs fuel (s :: rest) t2 = ([], some (t2 + 1))) ∧
    ((∀ u, (sch u).stopping = false) → (∀ u, (sch u).paused = false) →
      ((run_session sch envs fuel steps t).1.map (fun q => q.1.order_idx))
        = steps.map (fun s => s.order_idx)) := by
  obtain ⟨r2, hr2⟩ := run_session_visits sch envs fuel steps t
  have hmap : ((run_session sch envs fuel steps t).1.map (fun q => q.1.order_idx))
      ++ r2.map (fun s => s.order_idx) = steps.map (fun s => s.order_idx) := by
    conv_rhs => rw [← hr2]
    simp [List.map_append, List.map_map, Function.comp]
  have hsub : ((run_session sch envs fuel steps t).1.map (fun q => q.1.order_idx)).Sublist
      (steps.map (fun s => s.order_idx)) := by
    rw [← hmap]
    exact List.sublist_append_left _ _
  refine ⟨⟨r2.map (fun s => s.order_idx), hmap⟩,
    fun h => h.sublist hsub, fun h => h.sublist hsub, ?_, ?_⟩
  · intro t2 s rest h
    simp [run_session, h]
  · intro h1 h2
    have htot := run_session_total sch envs fuel h1 h2 steps t
    conv_rhs => rw [← htot]
    simp [List.map_map, Function.comp]

theorem replay_visits_increasing_prefix_witness :
    (∃ rest2, ((run_session schedStop2 envsEx 5 [row0, row1, row2] 0).1.map
        (fun q => q.1.order_idx)) ++ rest2 = [0, 1, 2]) ∧
    List.Pairwise (· < ·) ((run_session schedStop2 envsEx 5 [row0, row1, row2] 0).1.map
        (fun q => q.1.order_idx)) ∧
    run_session schedStop2 envsEx 5 [row1, row2] 2 = ([], some 3) ∧
    ((run_session schedRun envsEx 5 [row0, row1, row2] 0).1.map (fun q => q.1.order_idx))
      = [0, 1, 2] := by
  have h := replay_visits_increasing_prefix schedStop2 envsEx 5 [row0, row1, row2] 0
  have hrun := replay_visits_increasing_prefix schedRun envsEx 5 [row0, row1, row2] 0
  exact ⟨h.1, h.2.1 (by decide), h.2.2.2.1 2 row1 [row2] rfl,
    hrun.2.2.2.2 (fun u => rfl) (fun u => rfl)⟩

/-- C5: the OCR matcher never reports a box whose confidence is below
the floor 40, and reports no box at all when nothing survived the
floor. -/
theorem ocr_conf_floor (sim : String → String → ℚ) (rows : List OcrRow) (target : String) :
    (∀ b, (ocr_find_best sim rows target).1 = some b → 40 ≤ b.conf) ∧
    (ocr_boxes rows = [] → (ocr_find_best sim rows target).1 = none) := by
  constructor
  · intro b hb
    exact mem_ocr_boxes_conf (pickBest_fst_mem _ _ hb)
  · intro h
    show (pickBest _ (ocr_boxes rows)).1 = none
    rw [h]
    rfl

theorem ocr_conf_floor_witness :
    (40 : ℚ) ≤ submitBox.conf ∧ (ocr_find_best simEx [rowLow] "x").1 = none :=
  ⟨(ocr_conf_floor simEx [submitRow] "x").1 submitBox (by decide),
   (ocr_conf_floor simEx [rowLow] "x").2 (by decide)⟩

/-- C6 counterexample: read as a (left, top, width, height) rectangle,
(100, 200, 80, 30) has axis midpoints (140, 215); `center_of_bbox`
instead returns (90, 115), because its length-4 test makes every
four-entry list take the (left, top, right, bottom) reading. -/
theorem center_of_bbox_counterexample :
    center_of_bbox [100, 200, 80, 30] = some (90, 115) ∧
    ((90 : Int), (115 : Int)) ≠ ((140 : Int), (215 : Int)) := by
  decide

/-- C6 amended: `center_of_bbox` reads every four-entry rectangle as
(left, top, right, bottom) — the (left, top, width, height) conversion
branch requires a length other than 4 and so never fires for a
rectangle — and returns the arithmetic midpoint of each axis truncated
toward zero. -/
theorem center_of_bbox_ltrb_midpoint (l t r b : Int) :
    center_of_bbox [l, t, r, b] = some (Int.tdiv (l + r) 2, Int.tdiv (t + b) 2) :=
  center_of_bbox_quad l t r b

/-- C7: with a nonempty target name and no control-type filter,
`uia_find_best` returns an element of maximal score over all walked
elements, and among equal maximal scores the one encountered first in
traversal order (everything before it scores strictly less). -/
theorem uia_best_first_encounter (sim : String → String → ℚ) (elems : List UIAElem)
    (target : String) (hsim : ∀ a b, 0 ≤ sim a b) (htarget : target ≠ "")
    (hne : elems ≠ []) :
    ∃ pre e post,
      elems = pre ++ e :: post ∧
      uia_find_best sim elems target none = (some e, visitScore sim target e) ∧
      (∀ y ∈ elems, visitScore sim target y ≤ visitScore sim target e) ∧
      (∀ y ∈ pre, visitScore sim target y < visitScore sim target e) := by
  have hpos : ∀ y : UIAElem, (-1 : ℚ) < visitScore sim target y := by
    intro y
    rw [visitScore, if_neg htarget]
    exact lt_of_lt_of_le (by norm_num) (hsim _ _)
  rcases pickFold_cases (visitScore sim target) elems none (-1)
    with ⟨hle, _⟩ | ⟨pre, e, post, hsplit, _, heq, hmax, hpre⟩
  · obtain ⟨x, hx⟩ : ∃ x, x ∈ elems := by
      cases elems with
      | nil => exact absurd rfl hne
      | cons a l => exact ⟨a, List.mem_cons_self _ _⟩
    exact absurd (hle x hx) (not_le.mpr (hpos x))
  · exact ⟨pre, e, post, hsplit, by rw [uia_find_best_no_filter]; exact heq, hmax, hpre⟩

theorem uia_best_first_encounter_witness :
    ∃ pre e post,
      ([elemA, elemB] : List UIAElem) = pre ++ e :: post ∧
      uia_find_best simEx [elemA, elemB] "Submit" none = (some e, visitScore simEx "Submit" e) ∧
      (∀ y ∈ ([elemA, elemB] : List UIAElem),
        visitScore simEx "Submit" y ≤ visitScore simEx "Submit" e) ∧
      (∀ y ∈ pre, visitScore simEx "Submit" y < visitScore simEx "Submit" e) :=
  uia_best_first_encounter simEx [elemA, elemB] "Submit"
    (fun a b => by norm_num [simEx]) (by decide) (by simp)

/-- C8: toggling train while running (and not training) is refused and
changes no flag, and run while training is refused and changes no
flag; in neither case does a session or player start (the result is
the refusal, not a start). -/
theorem mode_guard_rejects (st : ModeState) (sessions : List Nat) :
    (st.training = false → st.running = true →
      toggle_train st = (st, TrainResult.refusedRunning)) ∧
    (st.training = true → do_run st sessions = (st, RunResult.refusedTraining)) := by
  constructor
  · intro h1 h2
    simp [toggle_train, h1, h2]
  · intro h1
    simp [do_run, h1]

theorem mode_guard_rejects_witness :
    toggle_train { training := false, running := true, paused := false, stopping := false }
      = ({ training := false, running := true, paused := false, stopping := false },
         TrainResult.refusedRunning) ∧
    do_run { training := true, running := false, paused := false, stopping := false } []
      = ({ training := true, running := false, paused := false, stopping := false },
         RunResult.refusedTraining) :=
  ⟨(mode_guard_rejects _ []).1 rfl rfl, (mode_guard_rejects _ []).2 rfl⟩

/-- C9: starting a session resets the counter to zero, and the rows a
session's recording appends carry order indices 0, 1, 2, … — zero
based, dense, strictly increasing in insertion order (the fresh
autoincrement id appears in no pre-existing row). -/
theorem recorder_order_dense (rec0 : RecorderState) (sessions : List Nat)
    (db : List StepRow) (ps : List StepPayload)
    (hfresh : ∀ r ∈ db, r.session_id ≠ sessions.foldr max 0 + 1) :
    (((record_many (start_session rec0 sessions).1 db ps).2.filter
        (fun r => r.session_id == sessions.foldr max 0 + 1)).map (fun r => r.order_idx))
      = List.range ps.length := by
  have h1 := record_many_filter (sessions.foldr max 0 + 1) ps
    (start_session rec0 sessions).1 db (by simp [start_session])
  rw [h1]
  have hdb : db.filter (fun r => r.session_id == sessions.foldr max 0 + 1) = [] :=
    List.filter_eq_nil_iff.mpr (by intro a ha; simpa using hfresh a ha)
  rw [hdb]
  simp [start_session, List.range_eq_range']

theorem recorder_order_dense_witness :
    (((record_many (start_session recInit []).1 [] [payA, payB]).2.filter
        (fun r => r.session_id == ([] : List Nat).foldr max 0 + 1)).map (fun r => r.order_idx))
      = List.range 2 :=
  recorder_order_dense recInit [] [] [payA, payB] (by intro r hr; cases hr)

/-- C10: when tier 1 found an element and its rectangle's center has a
zero coordinate, the truthiness test on the center rejects it: the
step is never clicked through the UIA tier and resolution falls
through to the OCR tier and the later fallbacks. -/
theorem tier1_zero_center_falls_through (env : ReplayEnv) (uinfo : Option UiaProps)
    (x y : Option Int) (e : UIAElem) (name : String) (l t r b : Int)
    (hname : uinfo.map (fun p => p.Name) = some name) (hne : name ≠ "")
    (hbest : (uia_find_best env.sim env.uiaElems name none).1 = some e)
    (hrect : e.BoundingRectangle = some (l, t, r, b))
    (hzero : Int.tdiv (l + r) 2 = 0 ∨ Int.tdiv (t + b) 2 = 0) :
    resolve_click env uinfo x y = resolve_fallback env (some name) x y ∧
    ∀ p, resolve_click env uinfo x y ≠ Resolved.uiaClick p := by
  have hbne : (name != "") = true := by simp [hne]
  have htier : tier1 env (some name) = none := by
    simp only [tier1, hbne, if_true, hbest, hrect, center_of_bbox_quad]
    rcases hzero with h | h <;> simp [h]
  have hmain : resolve_click env uinfo x y = resolve_fallback env (some name) x y := by
    simp only [resolve_click, hname, htier]
  exact ⟨hmain, fun p => hmain ▸ resolve_fallback_ne_uiaClick env (some name) x y p⟩

theorem tier1_zero_center_falls_through_witness :
    resolve_click { sim := simEx, uiaElems := [elemZero], ocrRows := [] }
        (some submitProps) (some 3) (some 4)
      = resolve_fallback { sim := simEx, uiaElems := [elemZero], ocrRows := [] }
        (some "Submit") (some 3) (some 4) :=
  (tier1_zero_center_falls_through { sim := simEx, uiaElems := [elemZero], ocrRows := [] }
    (some submitProps) (some 3) (some 4) elemZero "Submit" 0 0 0 10
    rfl (by decide) (by decide) rfl (Or.inl (by decide))).1

end RPALearner
